import Mathlib

/-!
Verification development for the jCAN paired-dataset loader
(`project/module/models/jCAN/paired_dataset.py`).

The embedding models, faithfully to the Python source:
  * `pyRound` — Python 3 built-in `round` (round half to even) on exact rationals;
  * `center_crop` — the symmetric crop/zero-pad transform on the trailing two
    axes (the spec's GeometryResizer), on a shape-plus-index-function matrix
    representation of a numpy array; `center_crop3` is its action on a rank-3
    array, which numpy applies independently at each leading index;
  * `VolumeDataset` — the per-volume accessor (the spec's VolumeAccessor):
    construction reads metadata and computes the trimmed window, access
    re-opens the file from the environment and extracts one slice;
  * `DummyVolumeDataset` and `AlignedVolumesDataset` — the placeholder volume
    and the aligned multi-protocol group, with the torch random draw for
    `exchange_Modal` modelled as an explicit stream of rationals.

Volumes are modelled as image-backed HDF5 files (an `image` dataset of rank 3
or 4 plus `acquisition` and `max` attributes).  The k-space branch of
`__getitem__` defers its domain conversion to a `utils` module that is not part
of this repository's sources; after that conversion it shares all indexing,
normalization, cropping and casting logic with the image branch modelled here.
-/

/-- Python 3 built-in `round` on an exact rational: round to the nearest
integer, ties to the even integer. -/
def pyRound (x : ℚ) : ℤ :=
  if x - ⌊x⌋ < 1/2 then ⌊x⌋
  else if 1/2 < x - ⌊x⌋ then ⌊x⌋ + 1
  else if ⌊x⌋ % 2 = 0 then ⌊x⌋ else ⌊x⌋ + 1

/-- A numpy 2-D array (the trailing two axes): a shape together with an index
function.  Values outside the shape are irrelevant junk; `MatEq` is the
equality that compares shapes and in-range entries. -/
structure Mat (α : Type) where
  rows : ℕ
  cols : ℕ
  data : ℕ → ℕ → α

/-- First half of `center_crop`: the axis `-2` branch of the source.  If the
target number of rows is at most the source's, slice rows
`[w_from, w_from + shape0)` with `w_from = (rows - shape0) // 2`; otherwise
zero-pad `w_before = (shape0 - rows) // 2` rows below and the rest above. -/
def cropPadRows {α : Type} [Zero α] (shape0 : ℕ) (a : Mat α) : Mat α :=
  if shape0 ≤ a.rows then
    { rows := shape0, cols := a.cols,
      data := fun i j => a.data (i + (a.rows - shape0) / 2) j }
  else
    { rows := shape0, cols := a.cols,
      data := fun i j =>
        if (shape0 - a.rows) / 2 ≤ i ∧ i < (shape0 - a.rows) / 2 + a.rows then
          a.data (i - (shape0 - a.rows) / 2) j
        else 0 }

/-- Second half of `center_crop`: the axis `-1` branch of the source, acting on
columns exactly as `cropPadRows` acts on rows. -/
def cropPadCols {α : Type} [Zero α] (shape1 : ℕ) (a : Mat α) : Mat α :=
  if shape1 ≤ a.cols then
    { rows := a.rows, cols := shape1,
      data := fun i j => a.data i (j + (a.cols - shape1) / 2) }
  else
    { rows := a.rows, cols := shape1,
      data := fun i j =>
        if (shape1 - a.cols) / 2 ≤ j ∧ j < (shape1 - a.cols) / 2 + a.cols then
          a.data i (j - (shape1 - a.cols) / 2)
        else 0 }

/-- `center_crop(data, shape)` from the source: the axis `-2` step followed by
the axis `-1` step (the row step leaves the column count unchanged, so the two
steps are independent). -/
def center_crop {α : Type} [Zero α] (a : Mat α) (shape : ℕ × ℕ) : Mat α :=
  cropPadCols shape.2 (cropPadRows shape.1 a)

/-- A numpy rank-3 array `[C, H, W]` as shape plus index function. -/
structure Arr3 (α : Type) where
  c : ℕ
  h : ℕ
  w : ℕ
  data : ℕ → ℕ → ℕ → α

/-- The 2-D plane of a rank-3 array at leading index `k`. -/
def Arr3.plane {α : Type} (a : Arr3 α) (k : ℕ) : Mat α :=
  ⟨a.h, a.w, a.data k⟩

/-- Elementwise map over a rank-3 array (a numpy elementwise ufunc). -/
def Arr3.map {α β : Type} (f : α → β) (a : Arr3 α) : Arr3 β :=
  ⟨a.c, a.h, a.w, fun k i j => f (a.data k i j)⟩

/-- `center_crop` on a rank-3 array.  The source's `data[..., a:b, :]` slices
and `np.pad` with zero widths on every non-trailing axis act independently at
each leading index, so the rank-3 action is `center_crop` applied to every
plane, with the leading axis untouched. -/
def center_crop3 {α : Type} [Zero α] (a : Arr3 α) (shape : ℕ × ℕ) : Arr3 α :=
  { c := a.c, h := shape.1, w := shape.2,
    data := fun k => (center_crop (a.plane k) shape).data }

/-- Numpy array equality for the 2-D model: equal shapes and equal entries at
every in-range index. -/
def MatEq {α : Type} (a b : Mat α) : Prop :=
  a.rows = b.rows ∧ a.cols = b.cols ∧
    ∀ i, i < a.rows → ∀ j, j < a.cols → a.data i j = b.data i j

/-- Numpy array equality for the rank-3 model. -/
def Arr3Eq {α : Type} (a b : Arr3 α) : Prop :=
  a.c = b.c ∧ a.h = b.h ∧ a.w = b.w ∧
    ∀ k, k < a.c → ∀ i, i < a.h → ∀ j, j < a.w → a.data k i j = b.data k i j

instance {α : Type} [DecidableEq α] (a b : Mat α) : Decidable (MatEq a b) := by
  unfold MatEq; infer_instance

instance {α : Type} [DecidableEq α] (a b : Arr3 α) : Decidable (Arr3Eq a b) := by
  unfold Arr3Eq; infer_instance

/-- Per-axis index map of the crop/pad transform, used to state what
`center_crop` computes: for a source axis of size `src` resized to `tgt`,
output position `i` reads input position `axMap src tgt i` (`none` means the
position lies in the zero-padded border). -/
def axMap (src tgt i : ℕ) : Option ℕ :=
  if tgt ≤ src then some (i + (src - tgt) / 2)
  else if (tgt - src) / 2 ≤ i ∧ i < (tgt - src) / 2 + src then
    some (i - (tgt - src) / 2)
  else none

/-- A complex value with exact rational components, standing in for numpy's
complex64 in the model. -/
structure CplxQ where
  re : ℚ
  im : ℚ
deriving DecidableEq

instance : Zero CplxQ := ⟨⟨0, 0⟩⟩

/-- The raw dataset stored in a volume file: rank 3 `[length, H, W]`
(single-channel) or rank 4 `[length, C, H, W]`.  A rank outside {3, 4} is the
source's `assert False` branch and is unrepresentable here. -/
inductive RawData where
  | r3 (len H W : ℕ) (vals : ℕ → ℕ → ℕ → ℚ)
  | r4 (len C H W : ℕ) (vals : ℕ → ℕ → ℕ → ℕ → ℚ)

/-- First-axis size of the raw dataset (`data.shape[0]`). -/
def RawData.length : RawData → ℕ
  | .r3 len _ _ _ => len
  | .r4 len _ _ _ _ => len

/-- Channel count as recorded by `VolumeDataset.__init__`: 1 for rank 3,
`data.shape[1]` for rank 4. -/
def RawData.channels : RawData → ℕ
  | .r3 _ _ _ _ => 1
  | .r4 _ C _ _ _ => C

/-- Value of the raw dataset at slice `l`, channel `k`, row `i`, column `j`;
a rank-3 dataset has a single implicit channel, so `k` is ignored. -/
def RawData.valAt : RawData → ℕ → ℕ → ℕ → ℕ → ℚ
  | .r3 _ _ _ vals, l, _, i, j => vals l i j
  | .r4 _ _ _ _ vals, l, k, i, j => vals l k i j

/-- One on-disk volume file: its (image) dataset and its `acquisition` and
`max` attributes. -/
structure H5File where
  dat : RawData
  acquisition : String
  maxAttr : ℚ

/-- The filesystem visible to the loader: contents of the file at each path.
`VolumeDataset` stores only a path and re-opens it on every access, so the
file contents enter construction and access as separate lookups. -/
def Env : Type := String → H5File

/-- Cached state of a `VolumeDataset` after `__init__`: the path, the
constructor flags, the channel count, the `acquisition` attribute, and the
trimmed window `[start, stop)`.  Neither the pixel data nor the `max`
attribute is cached. -/
structure VolumeDataset where
  volume : String
  flatten_channels : Bool
  crop : Option ℕ
  channels : ℕ
  protocal : String
  start : ℤ
  stop : ℤ
deriving DecidableEq

/-- `VolumeDataset.__init__`: asserts `q < 0.5`, opens the file, derives
`length` and `channels` from the dataset rank (rank 3 additionally asserts
`flatten_channels == False`), records the `acquisition` attribute, closes the
file, and computes `start = round(length * q)`, `stop = length - start`.
A failed assert is `none`. -/
def VolumeDataset.init (env : Env) (volume : String) (crop : Option ℕ) (q : ℚ)
    (flatten_channels : Bool) : Option VolumeDataset :=
  if q < 1/2 then
    match (env volume).dat with
    | .r3 len _ _ _ =>
      if flatten_channels = false then
        some { volume := volume, flatten_channels := flatten_channels,
               crop := crop, channels := 1,
               protocal := (env volume).acquisition,
               start := pyRound (len * q), stop := len - pyRound (len * q) }
      else none
    | .r4 len C _ _ _ =>
      some { volume := volume, flatten_channels := flatten_channels,
             crop := crop, channels := C,
             protocal := (env volume).acquisition,
             start := pyRound (len * q), stop := len - pyRound (len * q) }
  else none

/-- `VolumeDataset.__len__`: `stop - start`, times `channels` when channel
flattening is enabled. -/
def VolumeDataset.len (s : VolumeDataset) : ℤ :=
  if s.flatten_channels then (s.stop - s.start) * s.channels
  else s.stop - s.start

/-- Slice extraction step of `VolumeDataset.__getitem__`, on the re-opened
file: with flattening, `i = data[index // channels + start]` followed by
`i = i[index % channels][()][None, ...]` (a rank-3 `[1, H, W]` result); without
flattening, `i = data[index + start][()]`, extended by a leading channel axis
when the slice is 2-D.  A dataset index out of range is `none` (h5py raises).
The flatten-on-rank-3 combination is ruled out at construction and is
modelled as `none`. -/
def VolumeDataset.rawSlice (env : Env) (s : VolumeDataset) (index : ℤ) :
    Option (Arr3 ℚ) :=
  if s.flatten_channels then
    match (env s.volume).dat with
    | .r3 _ _ _ _ => none
    | .r4 len C H W vals =>
      if 0 ≤ index.fdiv s.channels + s.start ∧
          index.fdiv s.channels + s.start < (len : ℤ) ∧
          0 ≤ index % (s.channels : ℤ) ∧ index % (s.channels : ℤ) < (C : ℤ) then
        some ⟨1, H, W, fun _ i j =>
          vals (index.fdiv s.channels + s.start).toNat
            (index % (s.channels : ℤ)).toNat i j⟩
      else none
  else
    match (env s.volume).dat with
    | .r3 len H W vals =>
      if 0 ≤ index + s.start ∧ index + s.start < (len : ℤ) then
        some ⟨1, H, W, fun _ i j => vals (index + s.start).toNat i j⟩
      else none
    | .r4 len C H W vals =>
      if 0 ≤ index + s.start ∧ index + s.start < (len : ℤ) then
        some ⟨C, H, W, fun k i j => vals (index + s.start).toNat k i j⟩
      else none

/-- `VolumeDataset.__getitem__`: re-opens the file at the stored path (its
contents taken from `env` at access time), extracts the slice (`rawSlice`),
normalizes by `(i - minVal) / (maxVal - minVal)` with `minVal = 0` and
`maxVal` the `max` attribute read on this access, center-crops when a crop
size was configured, and casts to complex.  Both extraction branches yield a
rank-3 array, so the source's final rank-2 check never fires here. -/
def VolumeDataset.getitem (env : Env) (s : VolumeDataset) (index : ℤ) :
    Option (Arr3 CplxQ) :=
  match s.rawSlice env index with
  | none => none
  | some i0 =>
    match s.crop with
    | some cr =>
      some ((center_crop3
        (i0.map fun v => (v - 0) / ((env s.volume).maxAttr - 0))
        (cr, cr)).map fun v => CplxQ.mk v 0)
    | none =>
      some ((i0.map fun v =>
        (v - 0) / ((env s.volume).maxAttr - 0)).map fun v => CplxQ.mk v 0)

/-- The shape numpy reports for `x[0]`, used by the aligned group's
construction-time shape assert; `none` when `x[0]` itself fails. -/
def itemShape (env : Env) (s : VolumeDataset) : Option (ℕ × ℕ × ℕ) :=
  (s.getitem env 0).map fun a => (a.c, a.h, a.w)

/-- `DummyVolumeDataset` state: the shape captured from `ref[0]` and the
length of the reference (its dtype, complex64, is fixed in the model). -/
structure DummyVolumeDataset where
  shape : ℕ × ℕ × ℕ
  len : ℤ
deriving DecidableEq

/-- `DummyVolumeDataset.__getitem__`: a zero-filled array of the captured
shape, for every index, with no file access. -/
def DummyVolumeDataset.getitem (d : DummyVolumeDataset) : Arr3 CplxQ :=
  ⟨d.shape.1, d.shape.2.1, d.shape.2.2, fun _ _ _ => 0⟩

/-- A member of an aligned group: a real volume accessor or the placeholder. -/
inductive SliceSource where
  | vol (v : VolumeDataset)
  | dummy (d : DummyVolumeDataset)
deriving DecidableEq

/-- Length of a group member (`__len__` of either variant). -/
def SliceSource.len : SliceSource → ℤ
  | .vol v => v.len
  | .dummy d => d.len

/-- `__getitem__` of a group member; the placeholder never touches `env` and
never fails. -/
def SliceSource.getitem (env : Env) (index : ℤ) : SliceSource → Option (Arr3 CplxQ)
  | .vol v => v.getitem env index
  | .dummy d => some (d.getitem)

/-- `DummyVolumeDataset.__init__`: captures shape and dtype of `ref[0]` and
`len(ref)`; fails when `ref[0]` does. -/
def DummyVolumeDataset.init (env : Env) (ref : SliceSource) :
    Option DummyVolumeDataset :=
  (ref.getitem env 0).map fun sample => ⟨(sample.c, sample.h, sample.w), ref.len⟩

/-- Python-dict insertion on an association list: re-assigning an existing key
keeps its position and replaces its value, a new key is appended. -/
def dictInsert {β : Type} (d : List (String × β)) (k : String) (v : β) :
    List (String × β) :=
  if d.any fun p => p.1 = k then
    d.map fun p => if p.1 = k then (k, v) else p
  else d ++ [(k, v)]

/-- Python-dict lookup on an association list. -/
def dictFind {β : Type} (d : List (String × β)) (k : String) : Option β :=
  (d.find? fun p => p.1 = k).map Prod.snd

/-- The torch random source, modelled as a stream of draws in `[0, 1)` with a
cursor: `torch.rand(1)` yields `seq pos` and advances the cursor. -/
structure RNG where
  seq : ℕ → ℚ
  pos : ℕ

/-- State of an `AlignedVolumesDataset` after `__init__`: the crop size and the
resolved, ordered list of members. -/
structure AlignedVolumesDataset where
  crop : Option ℕ
  volumes : List SliceSource

/-- Exception-propagating list comprehension: `[f x for x in l]` where any
failing element aborts the whole construction. -/
def optList {α β : Type} (f : α → Option β) : List α → Option (List β)
  | [] => some []
  | a :: as =>
    match f a, optList f as with
    | some b, some bs => some (b :: bs)
    | _, _ => none

/-- Tail of `AlignedVolumesDataset.__init__`: assert every requested protocol
is a key of the mapping (naming the missing tag is the assert's message) and
resolve the ordered member list. -/
def resolveProtocals (dict : List (String × SliceSource)) (pr : List String)
    (crop : Option ℕ) (rng2 : RNG) : Option (AlignedVolumesDataset × RNG) :=
  if pr.all fun x => (dict.map Prod.fst).contains x then
    match optList (fun p => dictFind dict p) pr with
    | none => none
    | some sel => some ({ crop := crop, volumes := sel }, rng2)
  else none

/-- `AlignedVolumesDataset.__init__`: builds one `VolumeDataset` per path,
asserts that the set of member lengths and the set of `x[0]` shapes are both
singletons, keys members by their own `acquisition` protocol, adds the
`'None' ↦ DummyVolumeDataset` entry derived from the first dict entry, draws
`p = torch.rand(1)` once when `exchange_Modal` and reverses the requested
protocol order when `p > 0.5`, then resolves the order.  Any failed assert
(or failed member construction or failed `x[0]`) is `none`. -/
def AlignedVolumesDataset.init (env : Env) (paths : List String)
    (protocals : List String) (crop : Option ℕ) (q : ℚ)
    (flatten_channels : Bool) (exchange_Modal : Bool) (rng : RNG) :
    Option (AlignedVolumesDataset × RNG) :=
  match optList (fun x => VolumeDataset.init env x crop q flatten_channels)
      paths with
  | none => none
  | some volumes =>
    -- assert len({len(x) for x in volumes}) == 1
    if (volumes.map VolumeDataset.len).dedup.length = 1 then
      -- assert len({x[0].shape for x in volumes}) == 1
      match optList (fun v => itemShape env v) volumes with
      | none => none
      | some shapes =>
        if shapes.dedup.length = 1 then
          match volumes.foldl
              (fun d v => dictInsert d v.protocal (SliceSource.vol v)) [] with
          | [] => none
          | (k0, first) :: rest =>
            -- volumes['None'] = DummyVolumeDataset(next(iter(volumes.values())))
            match DummyVolumeDataset.init env first with
            | none => none
            | some dum =>
              resolveProtocals
                (dictInsert ((k0, first) :: rest) "None"
                  (SliceSource.dummy dum))
                (if exchange_Modal then
                  (if 1/2 < rng.seq rng.pos then protocals.reverse
                   else protocals)
                 else protocals)
                crop
                (if exchange_Modal then RNG.mk rng.seq (rng.pos + 1) else rng)
        else none
    else none

/-- `AlignedVolumesDataset.__len__`: length of the first member (`IndexError`
on an empty member list). -/
def AlignedVolumesDataset.len (s : AlignedVolumesDataset) : Option ℤ :=
  s.volumes.head?.map SliceSource.len

/-- `AlignedVolumesDataset.__getitem__`: one slice per member, in the order
fixed at construction.  The access reads no randomness, so the random stream
is returned untouched. -/
def AlignedVolumesDataset.getitem (env : Env) (s : AlignedVolumesDataset)
    (index : ℤ) (rng : RNG) : Option (List (Arr3 CplxQ)) × RNG :=
  (optList (fun v => v.getitem env index) s.volumes, rng)

theorem center_crop_rows {α : Type} [Zero α] (a : Mat α) (t : ℕ × ℕ) :
    (center_crop a t).rows = t.1 := by
  unfold center_crop cropPadCols cropPadRows
  split_ifs <;> rfl

theorem center_crop_cols {α : Type} [Zero α] (a : Mat α) (t : ℕ × ℕ) :
    (center_crop a t).cols = t.2 := by
  unfold center_crop cropPadCols cropPadRows
  split_ifs <;> rfl

/-- What `center_crop` computes, per axis independently: output position
`(i, j)` holds the input value at `(axMap rows t.1 i, axMap cols t.2 j)`, or
zero when either axis lands in the padded border. -/
theorem center_crop_data {α : Type} [Zero α] (a : Mat α) (t : ℕ × ℕ)
    (i j : ℕ) :
    (center_crop a t).data i j =
      match axMap a.rows t.1 i, axMap a.cols t.2 j with
      | some i2, some j2 => a.data i2 j2
      | _, _ => 0 := by
  unfold center_crop cropPadCols cropPadRows axMap
  split_ifs <;> simp_all

theorem axMap_pad_crop (src tgt i : ℕ) (h : src ≤ tgt) (hi : i < src) :
    axMap src tgt (i + (tgt - src) / 2) = some i := by
  unfold axMap
  split_ifs with h1 h2
  · simp only [Option.some.injEq]; omega
  · simp only [Option.some.injEq]; omega
  · exact absurd h2 (by push_neg; omega)

theorem center_crop3_plane {α : Type} [Zero α] (a : Arr3 α) (s : ℕ × ℕ)
    (k : ℕ) : (center_crop3 a s).plane k = center_crop (a.plane k) s := by
  unfold center_crop3 Arr3.plane center_crop cropPadCols cropPadRows
  split_ifs <;> rfl

theorem center_crop3_data {α : Type} [Zero α] (a : Arr3 α) (s : ℕ × ℕ)
    (k i j : ℕ) :
    (center_crop3 a s).data k i j = (center_crop (a.plane k) s).data i j := by
  have h := center_crop3_plane a s k
  calc (center_crop3 a s).data k i j = ((center_crop3 a s).plane k).data i j := rfl
    _ = (center_crop (a.plane k) s).data i j := by rw [h]

theorem cropPadRows_congr {α : Type} [Zero α] (t : ℕ) {a b : Mat α}
    (h : MatEq a b) : MatEq (cropPadRows t a) (cropPadRows t b) := by
  obtain ⟨hr, hc, hd⟩ := h
  unfold cropPadRows
  rw [← hr, ← hc]
  split_ifs with h1
  · refine ⟨rfl, rfl, fun i hi j hj => ?_⟩
    dsimp only at hi hj ⊢
    exact hd _ (by omega) _ (by omega)
  · refine ⟨rfl, rfl, fun i hi j hj => ?_⟩
    dsimp only at hi hj ⊢
    split_ifs with h2
    · exact hd _ (by omega) _ (by omega)
    · rfl

theorem cropPadCols_congr {α : Type} [Zero α] (t : ℕ) {a b : Mat α}
    (h : MatEq a b) : MatEq (cropPadCols t a) (cropPadCols t b) := by
  obtain ⟨hr, hc, hd⟩ := h
  unfold cropPadCols
  rw [← hr, ← hc]
  split_ifs with h1
  · refine ⟨rfl, rfl, fun i hi j hj => ?_⟩
    dsimp only at hi hj ⊢
    exact hd _ (by omega) _ (by omega)
  · refine ⟨rfl, rfl, fun i hi j hj => ?_⟩
    dsimp only at hi hj ⊢
    split_ifs with h2
    · exact hd _ (by omega) _ (by omega)
    · rfl

theorem center_crop_congr {α : Type} [Zero α] (s : ℕ × ℕ) {a b : Mat α}
    (h : MatEq a b) : MatEq (center_crop a s) (center_crop b s) :=
  cropPadCols_congr s.2 (cropPadRows_congr s.1 h)

/-- Pad up to `t`, then crop back to the original size: the identity on the
original array (up to the junk outside the shape). -/
theorem center_crop_pad_roundtrip {α : Type} [Zero α] (m : Mat α) (t : ℕ × ℕ)
    (h1 : m.rows ≤ t.1) (h2 : m.cols ≤ t.2) :
    MatEq (center_crop (center_crop m t) (m.rows, m.cols)) m := by
  refine ⟨by rw [center_crop_rows], by rw [center_crop_cols], fun i hi j hj => ?_⟩
  rw [center_crop_rows] at hi
  rw [center_crop_cols] at hj
  dsimp only at hi hj
  rw [center_crop_data, center_crop_rows, center_crop_cols]
  dsimp only
  have hx : axMap t.1 m.rows i = some (i + (t.1 - m.rows) / 2) := by
    unfold axMap; rw [if_pos h1]
  have hy : axMap t.2 m.cols j = some (j + (t.2 - m.cols) / 2) := by
    unfold axMap; rw [if_pos h2]
  rw [hx, hy]
  dsimp only
  rw [center_crop_data]
  rw [axMap_pad_crop m.rows t.1 i h1 hi, axMap_pad_crop m.cols t.2 j h2 hj]

theorem Arr3.map_congr {α β : Type} (f : α → β) {a b : Arr3 α}
    (h : Arr3Eq a b) : Arr3Eq (a.map f) (b.map f) := by
  obtain ⟨hc, hh, hw, hd⟩ := h
  exact ⟨hc, hh, hw, fun k hk i hi j hj => by
    dsimp only [Arr3.map]; rw [hd k hk i hi j hj]⟩

/-- Entry-level description of `center_crop3`: each plane is resized
independently; the value at `(k, i, j)` comes from plane `k` of the input at
the `axMap` positions, or is zero in the padded border. -/
theorem center_crop3_entry {α : Type} [Zero α] (a : Arr3 α) (s : ℕ × ℕ)
    (k i j : ℕ) :
    (center_crop3 a s).data k i j =
      match axMap a.h s.1 i, axMap a.w s.2 j with
      | some i2, some j2 => a.data k i2 j2
      | _, _ => 0 :=
  center_crop_data (a.plane k) s i j

theorem center_crop3_congr {α : Type} [Zero α] (s : ℕ × ℕ) {a b : Arr3 α}
    (h : Arr3Eq a b) : Arr3Eq (center_crop3 a s) (center_crop3 b s) := by
  obtain ⟨hc, hh, hw, hd⟩ := h
  refine ⟨hc, rfl, rfl, fun k hk i hi j hj => ?_⟩
  rw [center_crop3_data, center_crop3_data]
  have hm : MatEq (a.plane k) (b.plane k) :=
    ⟨hh, hw, fun i hi j hj => hd k hk i hi j hj⟩
  obtain ⟨_, _, hd2⟩ := center_crop_congr s hm
  exact hd2 i (by rw [center_crop_rows]; exact hi) j
    (by rw [center_crop_cols]; exact hj)

theorem center_crop3_pad_roundtrip {α : Type} [Zero α] (a : Arr3 α)
    (t : ℕ × ℕ) (h1 : a.h ≤ t.1) (h2 : a.w ≤ t.2) :
    Arr3Eq (center_crop3 (center_crop3 a t) (a.h, a.w)) a := by
  refine ⟨rfl, rfl, rfl, fun k hk i hi j hj => ?_⟩
  rw [center_crop3_data, center_crop3_plane]
  obtain ⟨_, _, hd⟩ := center_crop_pad_roundtrip (a.plane k) t h1 h2
  exact hd i (by rw [center_crop_rows]; exact hi) j
    (by rw [center_crop_cols]; exact hj)

/-- C2: `center_crop` returns an array whose trailing two axes have exactly
the target sizes; per axis independently it center-crops (`from =
(source - target) / 2`) or zero-pads (`before = (target - source) / 2` low,
the rest high); the leading (non-trailing) axis is untouched; and resizing to
the array's own trailing shape is pixel-identical to the input. -/
theorem claim_C2_geometry_resizer {α : Type} [Zero α] (a : Arr3 α)
    (t : ℕ × ℕ) (k i j : ℕ) (hk : k < a.c) (hi : i < t.1) (hj : j < t.2) :
    (center_crop3 a t).c = a.c ∧ (center_crop3 a t).h = t.1 ∧
    (center_crop3 a t).w = t.2 ∧
    ((center_crop3 a t).data k i j =
      match axMap a.h t.1 i, axMap a.w t.2 j with
      | some i2, some j2 => a.data k i2 j2
      | _, _ => 0) ∧
    Arr3Eq (center_crop3 a (a.h, a.w)) a := by
  refine ⟨rfl, rfl, rfl, center_crop3_entry a t k i j, ?_⟩
  refine ⟨rfl, rfl, rfl, fun k2 hk2 i2 hi2 j2 hj2 => ?_⟩
  rw [center_crop3_entry]
  have hx : axMap a.h a.h i2 = some i2 := by
    unfold axMap; rw [if_pos le_rfl]; simp
  have hy : axMap a.w a.w j2 = some j2 := by
    unfold axMap; rw [if_pos le_rfl]; simp
  dsimp only
  rw [hx, hy]

def c2A : Arr3 ℚ := ⟨1, 2, 2, fun k i j => (k + 2 * i + j : ℚ)⟩

theorem claim_C2_geometry_resizer_witness :
    0 < c2A.c ∧ 0 < 1 ∧ 0 < 3 ∧
    ((center_crop3 c2A (1, 3)).c = c2A.c ∧ (center_crop3 c2A (1, 3)).h = 1 ∧
     (center_crop3 c2A (1, 3)).w = 3 ∧
     ((center_crop3 c2A (1, 3)).data 0 0 0 =
       match axMap c2A.h 1 0, axMap c2A.w 3 0 with
       | some i2, some j2 => c2A.data 0 i2 j2
       | _, _ => 0) ∧
     Arr3Eq (center_crop3 c2A (c2A.h, c2A.w)) c2A) :=
  ⟨by decide, by decide, by decide,
    claim_C2_geometry_resizer c2A (1, 3) 0 0 0 (by decide) (by decide)
      (by decide)⟩

def cropPadDemo : Arr3 ℚ := ⟨1, 3, 1, fun _ i _ => (i : ℚ) + 1⟩

/-- C3: padding up to a target at least as large on both trailing axes and
then cropping back to the original trailing sizes returns the array exactly;
the reverse composition (crop strictly smaller, then pad back) is not the
identity: on the 3×1 column `(1, 2, 3)` it returns `(0, 2, 0)`. -/
theorem claim_C3_pad_crop_roundtrip (a : Arr3 ℚ) (t : ℕ × ℕ)
    (h1 : a.h ≤ t.1) (h2 : a.w ≤ t.2) :
    Arr3Eq (center_crop3 (center_crop3 a t) (a.h, a.w)) a ∧
    ¬ Arr3Eq (center_crop3 (center_crop3 cropPadDemo (1, 1)) (3, 1))
      cropPadDemo := by
  refine ⟨center_crop3_pad_roundtrip a t h1 h2, fun hEq => ?_⟩
  obtain ⟨_, _, _, hd⟩ := hEq
  have h0 := hd 0 (by decide) 0 (by decide) 0 (by decide)
  rw [center_crop3_entry] at h0
  have e1 : axMap (center_crop3 cropPadDemo (1, 1)).h 3 0 = none := by
    norm_num [center_crop3, axMap]
  rw [e1] at h0
  simp only [cropPadDemo] at h0
  norm_num at h0

theorem claim_C3_pad_crop_roundtrip_witness :
    cropPadDemo.h ≤ 4 ∧ cropPadDemo.w ≤ 2 ∧
    (Arr3Eq
      (center_crop3 (center_crop3 cropPadDemo (4, 2))
        (cropPadDemo.h, cropPadDemo.w)) cropPadDemo ∧
     ¬ Arr3Eq (center_crop3 (center_crop3 cropPadDemo (1, 1)) (3, 1))
       cropPadDemo) :=
  ⟨by decide, by decide,
    claim_C3_pad_crop_roundtrip cropPadDemo (4, 2) (by decide) (by decide)⟩

/-- Height (`shape[-2]`) of the raw dataset. -/
def RawData.height : RawData → ℕ
  | .r3 _ H _ _ => H
  | .r4 _ _ H _ _ => H

/-- Width (`shape[-1]`) of the raw dataset. -/
def RawData.width : RawData → ℕ
  | .r3 _ _ W _ => W
  | .r4 _ _ _ W _ => W

theorem pyRound_cases (x : ℚ) :
    pyRound x = ⌊x⌋ ∨ (pyRound x = ⌊x⌋ + 1 ∧ ¬(x - ⌊x⌋ < 1/2)) := by
  unfold pyRound
  split_ifs with h1 h2 h3
  · exact Or.inl rfl
  · exact Or.inr ⟨rfl, h1⟩
  · exact Or.inl rfl
  · exact Or.inr ⟨rfl, h1⟩

theorem pyRound_nonneg {x : ℚ} (h : 0 ≤ x) : 0 ≤ pyRound x := by
  have h0 : (0 : ℤ) ≤ ⌊x⌋ := Int.floor_nonneg.mpr h
  rcases pyRound_cases x with h1 | ⟨h1, _⟩ <;> omega

/-- With `0 ≤ q < 1/2`, the trim offset `round(length * q)` never exceeds half
the length, so the trimmed window `[start, length - start)` has nonnegative
size. -/
theorem two_mul_pyRound_le (L : ℕ) (q : ℚ) (h0 : 0 ≤ q) (h : q < 1/2) :
    2 * pyRound ((L : ℚ) * q) ≤ (L : ℤ) := by
  set x : ℚ := (L : ℚ) * q with hx
  have hx0 : 0 ≤ x := mul_nonneg (by positivity) h0
  have h2x : 2 * x ≤ (L : ℚ) := by nlinarith [Nat.cast_nonneg (α := ℚ) L]
  rcases pyRound_cases x with h1 | ⟨h1, h12⟩
  · rw [h1]
    have hf : (⌊x⌋ : ℚ) ≤ x := Int.floor_le x
    have : (2 * ⌊x⌋ : ℚ) ≤ (L : ℚ) := by linarith
    exact_mod_cast this
  · rw [h1]
    have hf : (⌊x⌋ : ℚ) ≤ x - 1/2 := by
      have := not_lt.mp h12; linarith
    have hxpos : 0 < x := by
      have h0f : (0 : ℤ) ≤ ⌊x⌋ := Int.floor_nonneg.mpr hx0
      have : (0 : ℚ) ≤ (⌊x⌋ : ℚ) := by exact_mod_cast h0f
      nlinarith [not_lt.mp h12]
    have hLpos : (0 : ℚ) < (L : ℚ) := by
      by_contra hc
      push_neg at hc
      have : (L : ℚ) = 0 := le_antisymm hc (by positivity)
      rw [hx] at hxpos
      nlinarith
    have h2xs : 2 * x < (L : ℚ) := by nlinarith
    have : (2 * (⌊x⌋ + 1) : ℚ) < (L : ℚ) + 1 := by push_cast; linarith
    have hZ : 2 * (⌊x⌋ + 1) < (L : ℤ) + 1 := by exact_mod_cast this
    omega

/-- What `VolumeDataset.__init__` caches on success. -/
theorem VolumeDataset.init_spec {env : Env} {volume : String}
    {crop : Option ℕ} {q : ℚ} {fl : Bool} {s : VolumeDataset}
    (h : VolumeDataset.init env volume crop q fl = some s) :
    s.volume = volume ∧ s.flatten_channels = fl ∧ s.crop = crop ∧
    s.channels = (env volume).dat.channels ∧
    s.protocal = (env volume).acquisition ∧
    s.start = pyRound (((env volume).dat.length : ℚ) * q) ∧
    s.stop = ((env volume).dat.length : ℤ) - s.start ∧ q < 1/2 := by
  unfold VolumeDataset.init at h
  by_cases hq : q < 1/2
  · rw [if_pos hq] at h
    cases hdat : (env volume).dat with
    | r3 len H W vals =>
      rw [hdat] at h
      cases hfl : fl with
      | false =>
        rw [hfl] at h
        simp only [reduceIte, Option.some.injEq] at h
        subst h
        refine ⟨rfl, rfl, rfl, ?_, rfl, ?_, ?_, hq⟩ <;>
          simp [hdat, RawData.channels, RawData.length]
      | true =>
        rw [hfl] at h
        simp at h
    | r4 len C H W vals =>
      rw [hdat] at h
      simp only [Option.some.injEq] at h
      subst h
      refine ⟨rfl, rfl, rfl, ?_, rfl, ?_, ?_, hq⟩ <;>
        simp [hdat, RawData.channels, RawData.length]
  · rw [if_neg hq] at h
    simp at h

/-- Non-flattened slice extraction reads raw slice `index + start`, whatever
the dataset rank; the leading axis of the result has the dataset's channel
count (1 for rank 3). -/
theorem VolumeDataset.rawSlice_nonflat {env : Env} {s : VolumeDataset}
    {index : ℤ} (hfl : s.flatten_channels = false)
    (h0 : 0 ≤ index + s.start)
    (hL : index + s.start < (((env s.volume).dat.length : ℕ) : ℤ)) :
    s.rawSlice env index =
      some ⟨(env s.volume).dat.channels, (env s.volume).dat.height,
        (env s.volume).dat.width,
        fun k i j => (env s.volume).dat.valAt (index + s.start).toNat k i j⟩ := by
  unfold VolumeDataset.rawSlice
  rw [hfl]
  cases hdat : (env s.volume).dat with
  | r3 len H W vals =>
    rw [hdat] at hL
    simp only [Bool.false_eq_true, reduceIte]
    rw [if_pos ⟨h0, hL⟩]
    rfl
  | r4 len C H W vals =>
    rw [hdat] at hL
    simp only [Bool.false_eq_true, reduceIte]
    rw [if_pos ⟨h0, hL⟩]
    rfl

/-- Non-flattened, uncropped access: the returned array is raw slice
`index + start`, normalized by the access-time `max` attribute and cast to
complex with zero imaginary part. -/
theorem VolumeDataset.getitem_nonflat {env : Env} {s : VolumeDataset}
    {index : ℤ} (hfl : s.flatten_channels = false) (hcrop : s.crop = none)
    (h0 : 0 ≤ index + s.start)
    (hL : index + s.start < (((env s.volume).dat.length : ℕ) : ℤ)) :
    s.getitem env index =
      some ⟨(env s.volume).dat.channels, (env s.volume).dat.height,
        (env s.volume).dat.width,
        fun k i j =>
          ⟨(env s.volume).dat.valAt (index + s.start).toNat k i j /
            (env s.volume).maxAttr, 0⟩⟩ := by
  unfold VolumeDataset.getitem
  rw [VolumeDataset.rawSlice_nonflat hfl h0 hL, hcrop]
  simp only [Arr3.map, sub_zero]

/-- Leading-axis size of any successfully extracted raw slice: 1 when
flattening, the dataset's channel count otherwise. -/
theorem VolumeDataset.rawSlice_spec {env : Env} {s : VolumeDataset}
    {index : ℤ} {i0 : Arr3 ℚ} (h : s.rawSlice env index = some i0) :
    (s.flatten_channels = true → i0.c = 1) ∧
    (s.flatten_channels = false → i0.c = (env s.volume).dat.channels) := by
  unfold VolumeDataset.rawSlice at h
  cases hfl : s.flatten_channels <;> rw [hfl] at h <;>
    simp only [Bool.false_eq_true, reduceIte] at h
  · cases hdat : (env s.volume).dat with
    | r3 len H W vals =>
      rw [hdat] at h
      dsimp only at h
      split_ifs at h
      simp only [Option.some.injEq] at h
      subst h
      exact ⟨fun hx => by simp at hx, fun _ => by simp [hdat, RawData.channels]⟩
    | r4 len C H W vals =>
      rw [hdat] at h
      dsimp only at h
      split_ifs at h
      simp only [Option.some.injEq] at h
      subst h
      exact ⟨fun hx => by simp at hx, fun _ => by simp [hdat, RawData.channels]⟩
  · cases hdat : (env s.volume).dat with
    | r3 len H W vals =>
      rw [hdat] at h
      simp at h
    | r4 len C H W vals =>
      rw [hdat] at h
      dsimp only at h
      split_ifs at h
      simp only [Option.some.injEq] at h
      subst h
      exact ⟨fun _ => rfl, fun hx => by simp at hx⟩

/-- Shape and dtype of any successful access: the leading axis is 1 when
flattening and the dataset's channel count otherwise (in either mode the rank
is 3), and every entry has zero imaginary part. -/
theorem VolumeDataset.getitem_shape {env : Env} {s : VolumeDataset}
    {index : ℤ} {a : Arr3 CplxQ} (h : s.getitem env index = some a) :
    (s.flatten_channels = true → a.c = 1) ∧
    (s.flatten_channels = false → a.c = (env s.volume).dat.channels) ∧
    ∀ k i j, (a.data k i j).im = 0 := by
  unfold VolumeDataset.getitem at h
  cases hraw : s.rawSlice env index with
  | none => rw [hraw] at h; simp at h
  | some i0 =>
    rw [hraw] at h
    have hc := VolumeDataset.rawSlice_spec hraw
    cases hcr : s.crop with
    | none =>
      rw [hcr] at h
      simp only [Option.some.injEq] at h
      subst h
      exact ⟨fun hf => hc.1 hf, fun hf => hc.2 hf, fun k i j => rfl⟩
    | some cr =>
      rw [hcr] at h
      simp only [Option.some.injEq] at h
      subst h
      exact ⟨fun hf => hc.1 hf, fun hf => hc.2 hf, fun k i j => rfl⟩

/-- C1: with raw first-axis size `length` and channel count `channels`, and
`0 ≤ q < 0.5` (the upper bound enforced by construction), the accessor caches
`start = round(length * q)`; its exposed length is
`(length - 2*start) * channels` with flattening and `length - 2*start`
without; and a non-flattened access at `index` reads raw slice
`index + start` of the underlying file (normalized by the `max` attribute). -/
theorem claim_C1_trim_window (env : Env) (path : String) (q : ℚ)
    (s sf : VolumeDataset) (i : ℤ) (k a b : ℕ)
    (hs : VolumeDataset.init env path none q false = some s)
    (hsf : VolumeDataset.init env path none q true = some sf)
    (hq0 : 0 ≤ q) (hi : 0 ≤ i)
    (hiL : i + s.start < (((env path).dat.length : ℕ) : ℤ)) :
    s.start = pyRound (((env path).dat.length : ℚ) * q) ∧
    sf.start = pyRound (((env path).dat.length : ℚ) * q) ∧
    s.len = ((env path).dat.length : ℤ) - 2 * s.start ∧
    sf.len = (((env path).dat.length : ℤ) - 2 * sf.start) *
      ((env path).dat.channels : ℤ) ∧
    ((s.getitem env i).map fun r => r.data k a b) =
      some ⟨(env path).dat.valAt (i + s.start).toNat k a b /
        (env path).maxAttr, 0⟩ := by
  obtain ⟨hvol, hfl, hcrop, hch, _, hstart, hstop, hq⟩ :=
    VolumeDataset.init_spec hs
  obtain ⟨hvolf, hflf, _, hchf, _, hstartf, hstopf, _⟩ :=
    VolumeDataset.init_spec hsf
  refine ⟨hstart, hstartf, ?_, ?_, ?_⟩
  · unfold VolumeDataset.len
    rw [hfl]
    simp only [Bool.false_eq_true, reduceIte]
    omega
  · unfold VolumeDataset.len
    rw [hflf]
    simp only [reduceIte]
    rw [hchf, hstopf]
    ring
  · have hstart0 : 0 ≤ s.start := by
      rw [hstart]
      exact pyRound_nonneg (mul_nonneg (Nat.cast_nonneg _) hq0)
    have h0 : 0 ≤ i + s.start := add_nonneg hi hstart0
    have hL : i + s.start < (((env s.volume).dat.length : ℕ) : ℤ) := by
      rw [hvol]; exact hiL
    have hg := VolumeDataset.getitem_nonflat hfl hcrop h0 hL
    rw [hvol] at hg
    rw [hg]
    rfl

def c1Env : Env := fun _ =>
  ⟨RawData.r4 100 2 4 4 (fun l _ _ _ => (l : ℚ)), "T1", 1⟩

def c1S : VolumeDataset := ⟨"v", false, none, 2, "T1", 5, 95⟩

def c1Sf : VolumeDataset := ⟨"v", true, none, 2, "T1", 5, 95⟩

theorem claim_C1_trim_window_witness :
    VolumeDataset.init c1Env "v" none (1/20) false = some c1S ∧
    VolumeDataset.init c1Env "v" none (1/20) true = some c1Sf ∧
    (0 : ℚ) ≤ 1/20 ∧ (0 : ℤ) ≤ 0 ∧
    (0 + c1S.start < (((c1Env "v").dat.length : ℕ) : ℤ)) ∧
    (c1S.start = pyRound (((c1Env "v").dat.length : ℚ) * (1/20)) ∧
     c1Sf.start = pyRound (((c1Env "v").dat.length : ℚ) * (1/20)) ∧
     c1S.len = ((c1Env "v").dat.length : ℤ) - 2 * c1S.start ∧
     c1Sf.len = (((c1Env "v").dat.length : ℤ) - 2 * c1Sf.start) *
       ((c1Env "v").dat.channels : ℤ) ∧
     ((c1S.getitem c1Env 0).map fun r => r.data 0 0 0) =
       some ⟨(c1Env "v").dat.valAt (0 + c1S.start).toNat 0 0 0 /
         (c1Env "v").maxAttr, 0⟩) := by
  have h1 : VolumeDataset.init c1Env "v" none (1/20) false = some c1S := by
    norm_num [VolumeDataset.init, c1Env, c1S, pyRound]
  have h2 : VolumeDataset.init c1Env "v" none (1/20) true = some c1Sf := by
    norm_num [VolumeDataset.init, c1Env, c1Sf, pyRound]
  have h3 : (0 + c1S.start < (((c1Env "v").dat.length : ℕ) : ℤ)) := by
    norm_num [c1Env, c1S, RawData.length]
  exact ⟨h1, h2, by norm_num, le_refl 0, h3,
    claim_C1_trim_window c1Env "v" (1/20) c1S c1Sf 0 0 0 0 h1 h2
      (by norm_num) (le_refl 0) h3⟩

/-- C9 (amended): for any constructed accessor with `0 ≤ q` (and `q < 0.5`
enforced by construction), the trimmed window size `length - 2*start` is
nonnegative, hence so is the exposed length — but it is not guaranteed to be
at least 1 (see the counterexample). -/
theorem claim_C9_window_nonneg (env : Env) (path : String) (crop : Option ℕ)
    (q : ℚ) (fl : Bool) (s : VolumeDataset)
    (hs : VolumeDataset.init env path crop q fl = some s) (hq0 : 0 ≤ q) :
    0 ≤ s.len ∧
    s.stop - s.start = ((env path).dat.length : ℤ) - 2 * s.start := by
  obtain ⟨_, _, _, _, _, hstart, hstop, hq⟩ := VolumeDataset.init_spec hs
  have h2 : 2 * s.start ≤ ((env path).dat.length : ℤ) := by
    rw [hstart]
    exact two_mul_pyRound_le (env path).dat.length q hq0 hq
  have hw : 0 ≤ s.stop - s.start := by omega
  refine ⟨?_, by omega⟩
  unfold VolumeDataset.len
  cases hfl : s.flatten_channels
  · simp only [Bool.false_eq_true, reduceIte]
    exact hw
  · simp only [reduceIte]
    exact mul_nonneg hw (Int.natCast_nonneg _)

def c9Env : Env := fun _ =>
  ⟨RawData.r3 2 1 1 (fun _ _ _ => 1), "A", 1⟩

/-- C9 counterexample: a volume of length 2 with `q = 0.3` (so `length ≥ 1`
and `0 ≤ q < 0.5`) has `start = round(0.6) = 1` and exposed length `0`, not at
least 1: the trimmed window can be empty. -/
theorem claim_C9_window_nonneg_cex :
    ((VolumeDataset.init c9Env "v" none (3/10) false).map
      VolumeDataset.len) = some 0 ∧ ¬(1 ≤ (0 : ℤ)) := by
  constructor
  · norm_num [VolumeDataset.init, c9Env, VolumeDataset.len, pyRound]
  · norm_num

def c9S : VolumeDataset := ⟨"v", false, none, 1, "A", 1, 1⟩

theorem claim_C9_window_nonneg_witness :
    VolumeDataset.init c9Env "v" none (3/10) false = some c9S ∧
    (0 : ℚ) ≤ 3/10 ∧
    (0 ≤ c9S.len ∧
     c9S.stop - c9S.start = ((c9Env "v").dat.length : ℤ) - 2 * c9S.start) := by
  have h1 : VolumeDataset.init c9Env "v" none (3/10) false = some c9S := by
    norm_num [VolumeDataset.init, c9Env, c9S, pyRound]
  exact ⟨h1, by norm_num,
    claim_C9_window_nonneg c9Env "v" none (3/10) false c9S h1 (by norm_num)⟩

/-- C10: a non-flattened access is not validated against the exposed length:
with `start > 0`, every index in `[length - 2*start, length - start)` — at or
past the exposed length — still succeeds, and the slice it returns is raw
slice `index + start`, which lies at or past `stop`, outside the trimmed
window. -/
theorem claim_C10_reads_past_window (env : Env) (path : String) (q : ℚ)
    (s : VolumeDataset) (i : ℤ) (k a b : ℕ)
    (hs : VolumeDataset.init env path none q false = some s)
    (hq0 : 0 ≤ q) (hpos : 0 < s.start)
    (hlo : ((env path).dat.length : ℤ) - 2 * s.start ≤ i)
    (hhi : i < ((env path).dat.length : ℤ) - s.start) :
    (s.getitem env i).isSome = true ∧
    s.stop ≤ i + s.start ∧
    ((s.getitem env i).map fun r => r.data k a b) =
      some ⟨(env path).dat.valAt (i + s.start).toNat k a b /
        (env path).maxAttr, 0⟩ := by
  obtain ⟨hvol, hfl, hcrop, _, _, hstart, hstop, hq⟩ :=
    VolumeDataset.init_spec hs
  have h2 : 2 * s.start ≤ ((env path).dat.length : ℤ) := by
    rw [hstart]
    exact two_mul_pyRound_le (env path).dat.length q hq0 hq
  have h0 : 0 ≤ i + s.start := by omega
  have hL : i + s.start < (((env s.volume).dat.length : ℕ) : ℤ) := by
    rw [hvol]; omega
  have hg := VolumeDataset.getitem_nonflat hfl hcrop h0 hL
  rw [hvol] at hg
  rw [hg]
  exact ⟨rfl, by omega, rfl⟩

def c10Env : Env := fun _ =>
  ⟨RawData.r3 10 1 1 (fun l _ _ => (l : ℚ)), "A", 1⟩

def c10S : VolumeDataset := ⟨"v", false, none, 1, "A", 1, 9⟩

theorem claim_C10_reads_past_window_witness :
    VolumeDataset.init c10Env "v" none (1/10) false = some c10S ∧
    (0 : ℚ) ≤ 1/10 ∧ 0 < c10S.start ∧
    ((c10Env "v").dat.length : ℤ) - 2 * c10S.start ≤ 8 ∧
    (8 : ℤ) < ((c10Env "v").dat.length : ℤ) - c10S.start ∧
    ((c10S.getitem c10Env 8).isSome = true ∧
     c10S.stop ≤ 8 + c10S.start ∧
     ((c10S.getitem c10Env 8).map fun r => r.data 0 0 0) =
       some ⟨(c10Env "v").dat.valAt ((8 : ℤ) + c10S.start).toNat 0 0 0 /
         (c10Env "v").maxAttr, 0⟩) := by
  have h1 : VolumeDataset.init c10Env "v" none (1/10) false = some c10S := by
    norm_num [VolumeDataset.init, c10Env, c10S, pyRound]
  have h4 : ((c10Env "v").dat.length : ℤ) - 2 * c10S.start ≤ 8 := by
    norm_num [c10Env, c10S, RawData.length]
  have h5 : (8 : ℤ) < ((c10Env "v").dat.length : ℤ) - c10S.start := by
    norm_num [c10Env, c10S, RawData.length]
  exact ⟨h1, by norm_num, by norm_num [c10S], h4, h5,
    claim_C10_reads_past_window c10Env "v" (1/10) c10S 8 0 0 0 h1
      (by norm_num) (by norm_num [c10S]) h4 h5⟩

/-- C5 (amended): every successful access returns a rank-3 complex-cast array
with zero imaginary part, and its leading axis has size 1 in flattened mode —
but in non-flattened mode the leading axis is the dataset's channel count,
which is 1 only for single-channel volumes (see the counterexample). -/
theorem claim_C5_leading_axis (env : Env) (s sf : VolumeDataset) (index : ℤ)
    (a af : Arr3 CplxQ) (k i j : ℕ)
    (hfl : s.flatten_channels = false) (hflf : sf.flatten_channels = true)
    (h : s.getitem env index = some a) (hf : sf.getitem env index = some af) :
    a.c = (env s.volume).dat.channels ∧ af.c = 1 ∧
    (a.data k i j).im = 0 ∧ (af.data k i j).im = 0 := by
  obtain ⟨_, h2, h3⟩ := VolumeDataset.getitem_shape h
  obtain ⟨h1f, _, h3f⟩ := VolumeDataset.getitem_shape hf
  exact ⟨h2 hfl, h1f hflf, h3 k i j, h3f k i j⟩

def c5Env : Env := fun _ =>
  ⟨RawData.r4 1 2 3 3 (fun _ _ _ _ => 1), "A", 1⟩

/-- C5 counterexample: on a two-channel volume accessed without flattening,
`get(0)` returns an array whose leading axis has size 2, not 1 — the claim
that the leading axis is always exactly 1 in both modes fails. -/
theorem claim_C5_leading_axis_cex :
    ((VolumeDataset.init c5Env "v" none 0 false).bind fun s =>
      (s.getitem c5Env 0).map Arr3.c) = some 2 ∧ (2 : ℕ) ≠ 1 := by
  refine ⟨?_, by norm_num⟩
  have h1 : VolumeDataset.init c5Env "v" none 0 false =
      some ⟨"v", false, none, 2, "A", 0, 1⟩ := by
    norm_num [VolumeDataset.init, c5Env, pyRound]
  rw [h1]
  have h2 : VolumeDataset.rawSlice c5Env ⟨"v", false, none, 2, "A", 0, 1⟩ 0 =
      some ⟨2, 3, 3, fun k i j => (c5Env "v").dat.valAt 0 k i j⟩ := by
    have := @VolumeDataset.rawSlice_nonflat c5Env
      ⟨"v", false, none, 2, "A", 0, 1⟩ 0 rfl (by norm_num)
      (by norm_num [c5Env, RawData.length])
    simpa [c5Env, RawData.channels, RawData.height, RawData.width] using this
  simp only [Option.some_bind]
  unfold VolumeDataset.getitem
  rw [h2]
  rfl

def c5S : VolumeDataset := ⟨"v", false, none, 2, "A", 0, 1⟩

def c5Sf : VolumeDataset := ⟨"v", true, none, 2, "A", 0, 1⟩

theorem claim_C5_leading_axis_witness :
    c5S.flatten_channels = false ∧ c5Sf.flatten_channels = true ∧
    (∃ a, c5S.getitem c5Env 0 = some a ∧
      ∃ af, c5Sf.getitem c5Env 0 = some af ∧
        (a.c = (c5Env c5S.volume).dat.channels ∧ af.c = 1 ∧
         (a.data 0 0 0).im = 0 ∧ (af.data 0 0 0).im = 0)) := by
  have hra : VolumeDataset.rawSlice c5Env c5S 0 =
      some ⟨2, 3, 3, fun k i j => (c5Env "v").dat.valAt 0 k i j⟩ := by
    have := @VolumeDataset.rawSlice_nonflat c5Env c5S 0 rfl
      (by norm_num [c5S]) (by norm_num [c5S, c5Env, RawData.length])
    simpa [c5Env, c5S, RawData.channels, RawData.height, RawData.width]
      using this
  have hrf : VolumeDataset.rawSlice c5Env c5Sf 0 =
      some ⟨1, 3, 3, fun _ i j =>
        (c5Env "v").dat.valAt 0 0 i j⟩ := by
    unfold VolumeDataset.rawSlice
    norm_num [c5Sf, c5Env]
    rfl
  have ha : c5S.getitem c5Env 0 =
      some ((((⟨2, 3, 3, fun k i j => (c5Env "v").dat.valAt 0 k i j⟩ :
        Arr3 ℚ).map fun v =>
          (v - 0) / ((c5Env c5S.volume).maxAttr - 0)).map
            fun v => CplxQ.mk v 0)) := by
    unfold VolumeDataset.getitem
    rw [hra]
    rfl
  have haf : c5Sf.getitem c5Env 0 =
      some ((((⟨1, 3, 3, fun _ i j => (c5Env "v").dat.valAt 0 0 i j⟩ :
        Arr3 ℚ).map fun v =>
          (v - 0) / ((c5Env c5Sf.volume).maxAttr - 0)).map
            fun v => CplxQ.mk v 0)) := by
    unfold VolumeDataset.getitem
    rw [hrf]
    rfl
  refine ⟨rfl, rfl, _, ha, _, haf, ?_⟩
  exact claim_C5_leading_axis c5Env c5S c5Sf 0 _ _ 0 0 0 rfl rfl ha haf

/-- C6 (amended): the `max` normalization scalar is not cached at
construction: `__init__` reads only the `acquisition` attribute (so two
construction-time file contents differing only in `max` yield the same
state), and every access re-reads `max` from the file as found at access
time and normalizes by that value. -/
theorem claim_C6_max_reread (envC envC2 envA : Env) (path : String)
    (crop : Option ℕ) (q : ℚ) (fl : Bool) (s : VolumeDataset) (i : ℤ)
    (k a b : ℕ)
    (hdat : (envC path).dat = (envC2 path).dat)
    (hacq : (envC path).acquisition = (envC2 path).acquisition)
    (hs : VolumeDataset.init envC path crop q fl = some s)
    (hfl : s.flatten_channels = false) (hcrop : s.crop = none)
    (h0 : 0 ≤ i + s.start)
    (hL : i + s.start < (((envA s.volume).dat.length : ℕ) : ℤ)) :
    VolumeDataset.init envC2 path crop q fl = some s ∧
    ((s.getitem envA i).map fun r => r.data k a b) =
      some ⟨(envA s.volume).dat.valAt (i + s.start).toNat k a b /
        (envA s.volume).maxAttr, 0⟩ := by
  constructor
  · have he : VolumeDataset.init envC2 path crop q fl =
        VolumeDataset.init envC path crop q fl := by
      unfold VolumeDataset.init
      rw [← hdat, ← hacq]
    rw [he]
    exact hs
  · rw [VolumeDataset.getitem_nonflat hfl hcrop h0 hL]
    rfl

def c6EnvA : Env := fun _ => ⟨RawData.r3 1 1 1 (fun _ _ _ => 1), "A", 1⟩

def c6EnvB : Env := fun _ => ⟨RawData.r3 1 1 1 (fun _ _ _ => 1), "A", 2⟩

/-- C6 counterexample: construct the accessor while the file's `max`
attribute is 1; access after the attribute has changed to 2.  The returned
value is `1/2` — normalized by the access-time attribute — not `1` as the
cached construction-time value would give: `get` re-reads the metadata on
every access. -/
theorem claim_C6_max_reread_cex :
    ((VolumeDataset.init c6EnvA "v" none 0 false).bind fun s =>
      (s.getitem c6EnvB 0).map fun r => r.data 0 0 0) = some ⟨1/2, 0⟩ ∧
    ¬((1 : ℚ)/2 = 1/1) := by
  refine ⟨?_, by norm_num⟩
  have h1 : VolumeDataset.init c6EnvA "v" none 0 false =
      some ⟨"v", false, none, 1, "A", 0, 1⟩ := by
    norm_num [VolumeDataset.init, c6EnvA, pyRound]
  rw [h1]
  simp only [Option.some_bind]
  have h2 := @VolumeDataset.getitem_nonflat c6EnvB
    ⟨"v", false, none, 1, "A", 0, 1⟩ 0 rfl rfl
    (by norm_num) (by norm_num [c6EnvB, RawData.length])
  rw [h2]
  simp only [Option.map_some']
  norm_num [c6EnvB, RawData.valAt]

def c6S : VolumeDataset := ⟨"v", false, none, 1, "A", 0, 1⟩

theorem claim_C6_max_reread_witness :
    (c6EnvA "v").dat = (c6EnvB "v").dat ∧
    (c6EnvA "v").acquisition = (c6EnvB "v").acquisition ∧
    VolumeDataset.init c6EnvA "v" none 0 false = some c6S ∧
    c6S.flatten_channels = false ∧ c6S.crop = none ∧
    (0 : ℤ) ≤ 0 + c6S.start ∧
    0 + c6S.start < (((c6EnvB c6S.volume).dat.length : ℕ) : ℤ) ∧
    (VolumeDataset.init c6EnvB "v" none 0 false = some c6S ∧
     ((c6S.getitem c6EnvB 0).map fun r => r.data 0 0 0) =
       some ⟨(c6EnvB c6S.volume).dat.valAt ((0 : ℤ) + c6S.start).toNat 0 0 0 /
         (c6EnvB c6S.volume).maxAttr, 0⟩) := by
  have h1 : VolumeDataset.init c6EnvA "v" none 0 false = some c6S := by
    norm_num [VolumeDataset.init, c6EnvA, c6S, pyRound]
  have h6 : (0 : ℤ) ≤ 0 + c6S.start := by norm_num [c6S]
  have h7 : 0 + c6S.start < (((c6EnvB c6S.volume).dat.length : ℕ) : ℤ) := by
    norm_num [c6S, c6EnvB, RawData.length]
  exact ⟨rfl, rfl, h1, rfl, rfl, h6, h7,
    claim_C6_max_reread c6EnvA c6EnvB c6EnvB "v" none 0 false c6S 0 0 0 0
      rfl rfl h1 rfl rfl h6 h7⟩

/-- Equality of optional arrays: both fail, or both succeed with numpy-equal
results. -/
def OArr3Eq {α : Type} : Option (Arr3 α) → Option (Arr3 α) → Prop
  | some a, some b => Arr3Eq a b
  | none, none => True
  | _, _ => False

/-- Flattened extraction on a single-channel rank-4 volume reads raw slice
`index + start`, channel 0. -/
theorem VolumeDataset.rawSlice_flat_one {env : Env} {s : VolumeDataset}
    {index : ℤ} {L H W : ℕ} {vals : ℕ → ℕ → ℕ → ℕ → ℚ}
    (hfl : s.flatten_channels = true) (hch : s.channels = 1)
    (hdat : (env s.volume).dat = RawData.r4 L 1 H W vals)
    (h0 : 0 ≤ index + s.start) (hL : index + s.start < (L : ℤ)) :
    s.rawSlice env index =
      some ⟨1, H, W, fun _ i j => vals (index + s.start).toNat 0 i j⟩ := by
  unfold VolumeDataset.rawSlice
  rw [hfl, hdat]
  dsimp only
  rw [hch]
  simp only [Nat.cast_one, Int.fdiv_one, Int.emod_one]
  have hcond : 0 ≤ index + s.start ∧ index + s.start < (L : ℤ) ∧
      (0 : ℤ) ≤ 0 ∧ (0 : ℤ) < 1 := ⟨h0, hL, le_refl 0, by norm_num⟩
  rw [if_pos hcond]
  rfl

/-- Post-extraction processing (normalize, crop, cast) sends numpy-equal raw
slices from the same file and crop configuration to numpy-equal results. -/
theorem VolumeDataset.getitem_congr {env : Env} {s sf : VolumeDataset}
    {index : ℤ} {A B : Arr3 ℚ}
    (hva : s.volume = sf.volume) (hcr : s.crop = sf.crop)
    (hA : s.rawSlice env index = some A) (hB : sf.rawSlice env index = some B)
    (hAB : Arr3Eq A B) :
    OArr3Eq (s.getitem env index) (sf.getitem env index) := by
  unfold VolumeDataset.getitem
  rw [hA, hB, hcr, hva]
  cases hc : sf.crop with
  | none =>
    dsimp only [OArr3Eq]
    exact Arr3.map_congr _ (Arr3.map_congr _ hAB)
  | some cr =>
    dsimp only [OArr3Eq]
    exact Arr3.map_congr _ (center_crop3_congr _ (Arr3.map_congr _ hAB))

/-- C7: on a rank-4 volume with channel count 1, the accessor with channel
flattening enabled is equivalent to the one with it disabled: the exposed
lengths coincide, and every in-range access returns numpy-equal arrays. -/
theorem claim_C7_flatten_equiv (env : Env) (path : String) (q : ℚ)
    (crop : Option ℕ) (s sf : VolumeDataset) (i : ℤ)
    (L H W : ℕ) (vals : ℕ → ℕ → ℕ → ℕ → ℚ)
    (hdat : (env path).dat = RawData.r4 L 1 H W vals)
    (hs : VolumeDataset.init env path crop q false = some s)
    (hsf : VolumeDataset.init env path crop q true = some sf)
    (hq0 : 0 ≤ q) (hi0 : 0 ≤ i) (hiL : i + s.start < (L : ℤ)) :
    s.len = sf.len ∧ OArr3Eq (s.getitem env i) (sf.getitem env i) := by
  obtain ⟨hvol, hfl, hcrop, hch, _, hstart, hstop, hq⟩ :=
    VolumeDataset.init_spec hs
  obtain ⟨hvolf, hflf, hcropf, hchf, _, hstartf, hstopf, _⟩ :=
    VolumeDataset.init_spec hsf
  have hch1 : s.channels = 1 := by rw [hch, hdat]; rfl
  have hchf1 : sf.channels = 1 := by rw [hchf, hdat]; rfl
  constructor
  · unfold VolumeDataset.len
    rw [hfl, hflf, hchf1]
    simp only [Bool.false_eq_true, reduceIte, Nat.cast_one, mul_one]
    rw [hstop, hstopf, hstart, hstartf]
  · have hstart0 : 0 ≤ s.start := by
      rw [hstart]
      exact pyRound_nonneg (mul_nonneg (Nat.cast_nonneg _) hq0)
    have hse : sf.start = s.start := by rw [hstartf, hstart]
    have h0 : 0 ≤ i + s.start := add_nonneg hi0 hstart0
    have hLn : i + s.start < (((env s.volume).dat.length : ℕ) : ℤ) := by
      rw [hvol, hdat]
      exact hiL
    have hA := VolumeDataset.rawSlice_nonflat hfl h0 hLn
    rw [hvol, hdat] at hA
    have hB := @VolumeDataset.rawSlice_flat_one env sf i L H W vals
      hflf hchf1
      (by rw [hvolf]; exact hdat) (by rw [hse]; exact h0)
      (by rw [hse]; exact hiL)
    rw [hse] at hB
    refine VolumeDataset.getitem_congr (by rw [hvol, hvolf])
      (by rw [hcrop, hcropf]) hA hB ?_
    refine ⟨rfl, rfl, rfl, fun k hk i2 hi2 j2 hj2 => ?_⟩
    have hk0 : k = 0 := by
      have : k < (RawData.r4 L 1 H W vals).channels := hk
      simpa [RawData.channels, Nat.lt_one_iff] using this
    subst hk0
    rfl

def c7Env : Env := fun _ =>
  ⟨RawData.r4 1 1 1 1 (fun l _ _ _ => (l : ℚ) + 7), "A", 1⟩

def c7S : VolumeDataset := ⟨"v", false, none, 1, "A", 0, 1⟩

def c7Sf : VolumeDataset := ⟨"v", true, none, 1, "A", 0, 1⟩

theorem claim_C7_flatten_equiv_witness :
    (c7Env "v").dat = RawData.r4 1 1 1 1 (fun l _ _ _ => (l : ℚ) + 7) ∧
    VolumeDataset.init c7Env "v" none 0 false = some c7S ∧
    VolumeDataset.init c7Env "v" none 0 true = some c7Sf ∧
    (0 : ℚ) ≤ 0 ∧ (0 : ℤ) ≤ 0 ∧ 0 + c7S.start < (1 : ℤ) ∧
    (c7S.len = c7Sf.len ∧
     OArr3Eq (c7S.getitem c7Env 0) (c7Sf.getitem c7Env 0)) := by
  have h1 : VolumeDataset.init c7Env "v" none 0 false = some c7S := by
    norm_num [VolumeDataset.init, c7Env, c7S, pyRound]
  have h2 : VolumeDataset.init c7Env "v" none 0 true = some c7Sf := by
    norm_num [VolumeDataset.init, c7Env, c7Sf, pyRound]
  have h3 : 0 + c7S.start < (1 : ℤ) := by norm_num [c7S]
  exact ⟨rfl, h1, h2, le_refl 0, le_refl 0, h3,
    claim_C7_flatten_equiv c7Env "v" 0 none c7S c7Sf 0 1 1 1
      (fun l _ _ _ => (l : ℚ) + 7) rfl h1 h2 (le_refl 0) (le_refl 0) h3⟩

theorem optList_mem {α β : Type} (f : α → Option β) {l : List α}
    {res : List β} (h : optList f l = some res) {x : α} (hx : x ∈ l) :
    ∃ y ∈ res, f x = some y := by
  induction l generalizing res with
  | nil => simp at hx
  | cons a as ih =>
    unfold optList at h
    cases hfa : f a with
    | none => rw [hfa] at h; simp at h
    | some b =>
      rw [hfa] at h
      cases hrest : optList f as with
      | none => rw [hrest] at h; simp at h
      | some bs =>
        rw [hrest] at h
        dsimp only at h
        simp only [Option.some.injEq] at h
        subst h
        rcases List.mem_cons.mp hx with rfl | hx2
        · exact ⟨b, List.mem_cons_self _ _, hfa⟩
        · obtain ⟨y, hym, hy⟩ := ih hrest hx2
          exact ⟨y, List.mem_cons_of_mem _ hym, hy⟩

/-- A list whose set of elements (`dedup`) is a singleton has all members
equal: the contrapositive of the source's `len(set(...)) == 1` asserts. -/
theorem dedup_one_all_eq {α : Type} [DecidableEq α] {l : List α}
    (h : l.dedup.length = 1) {x y : α} (hx : x ∈ l) (hy : y ∈ l) : x = y := by
  obtain ⟨a, ha⟩ := List.length_eq_one.mp h
  have hx2 : x ∈ l.dedup := List.mem_dedup.mpr hx
  have hy2 : y ∈ l.dedup := List.mem_dedup.mpr hy
  rw [ha] at hx2 hy2
  simp only [List.mem_singleton] at hx2 hy2
  rw [hx2, hy2]

/-- C4: if the member accessors all construct but do not all report the same
length, or do not all report the same first-slice shape, then
`AlignedVolumesDataset` construction fails (returns no state at all, so no
`get` on the group is ever possible); in particular two members of differing
length always fail construction. -/
theorem claim_C4_group_asserts (env : Env) (paths protocals : List String)
    (crop : Option ℕ) (q : ℚ) (fl ex : Bool) (rng : RNG)
    (vs : List VolumeDataset) (v1 v2 : VolumeDataset)
    (hvs : optList (fun x => VolumeDataset.init env x crop q fl) paths =
      some vs)
    (h1 : v1 ∈ vs) (h2 : v2 ∈ vs)
    (hne : v1.len ≠ v2.len ∨ itemShape env v1 ≠ itemShape env v2) :
    AlignedVolumesDataset.init env paths protocals crop q fl ex rng =
      none := by
  unfold AlignedVolumesDataset.init
  rw [hvs]
  dsimp only
  rcases hne with hne | hne
  · have hnot : ¬((vs.map VolumeDataset.len).dedup.length = 1) := fun hl =>
      hne (dedup_one_all_eq hl (List.mem_map_of_mem _ h1)
        (List.mem_map_of_mem _ h2))
    rw [if_neg hnot]
  · by_cases hlen : (vs.map VolumeDataset.len).dedup.length = 1
    · rw [if_pos hlen]
      cases hsh : optList (fun v => itemShape env v) vs with
      | none => rfl
      | some ss =>
        dsimp only
        obtain ⟨y1, hy1m, hy1⟩ := optList_mem _ hsh h1
        obtain ⟨y2, hy2m, hy2⟩ := optList_mem _ hsh h2
        have hnot : ¬(ss.dedup.length = 1) := by
          intro hl
          apply hne
          rw [hy1, hy2, dedup_one_all_eq hl hy1m hy2m]
        rw [if_neg hnot]
    · rw [if_neg hlen]

def c4Env : Env := fun p =>
  if p = "a" then ⟨RawData.r3 1 1 1 (fun _ _ _ => 1), "T1", 1⟩
  else ⟨RawData.r3 3 1 1 (fun _ _ _ => 1), "T2", 1⟩

def c4Sa : VolumeDataset := ⟨"a", false, none, 1, "T1", 0, 1⟩

def c4Sb : VolumeDataset := ⟨"b", false, none, 1, "T2", 0, 3⟩

def c4Rng : RNG := ⟨fun _ => 0, 0⟩

theorem claim_C4_group_asserts_witness :
    optList (fun x => VolumeDataset.init c4Env x none 0 false) ["a", "b"] =
      some [c4Sa, c4Sb] ∧
    c4Sa ∈ [c4Sa, c4Sb] ∧ c4Sb ∈ [c4Sa, c4Sb] ∧
    (c4Sa.len ≠ c4Sb.len ∨ itemShape c4Env c4Sa ≠ itemShape c4Env c4Sb) ∧
    AlignedVolumesDataset.init c4Env ["a", "b"] ["T1", "T2"] none 0 false
      false c4Rng = none := by
  have ha : VolumeDataset.init c4Env "a" none 0 false = some c4Sa := by
    simp [VolumeDataset.init, c4Env, c4Sa, pyRound]
  have hb : VolumeDataset.init c4Env "b" none 0 false = some c4Sb := by
    simp [VolumeDataset.init, c4Env, c4Sb, pyRound]
  have hvs : optList (fun x => VolumeDataset.init c4Env x none 0 false)
      ["a", "b"] = some [c4Sa, c4Sb] := by
    simp [optList, ha, hb]
  have hlen : c4Sa.len ≠ c4Sb.len := by
    norm_num [VolumeDataset.len, c4Sa, c4Sb]
  exact ⟨hvs, List.mem_cons_self _ _,
    List.mem_cons_of_mem _ (List.mem_cons_self _ _), Or.inl hlen,
    claim_C4_group_asserts c4Env ["a", "b"] ["T1", "T2"] none 0 false false
      c4Rng [c4Sa, c4Sb] c4Sa c4Sb hvs (List.mem_cons_self _ _)
      (List.mem_cons_of_mem _ (List.mem_cons_self _ _)) (Or.inl hlen)⟩

/-- The resolution tail of construction passes the random stream it was
given straight through to the returned state. -/
theorem resolveProtocals_rng {dict : List (String × SliceSource)}
    {pr : List String} {crop : Option ℕ} {rng2 : RNG}
    {st : AlignedVolumesDataset} {r2 : RNG}
    (h : resolveProtocals dict pr crop rng2 = some (st, r2)) : r2 = rng2 := by
  unfold resolveProtocals at h
  split_ifs at h
  · cases hsel : optList (fun p => dictFind dict p) pr with
    | none => rw [hsel] at h; simp at h
    | some sel =>
      rw [hsel] at h
      dsimp only at h
      simp only [Option.some.injEq, Prod.mk.injEq] at h
      exact h.2.symm

/-- C8: with `exchange_Modal` enabled, the protocol-order coin is drawn
exactly once, at construction (the returned random stream is the input stream
advanced by one position, its underlying sequence untouched); and `get` never
reads the random source: it returns the stream unchanged, its result is the
same for any stream state, and for every index it maps the member list fixed
at construction in construction order. -/
theorem claim_C8_construction_coin (env : Env)
    (paths protocals : List String) (crop : Option ℕ) (q : ℚ) (fl : Bool)
    (rng rngA rngB : RNG) (i : ℤ) (st : AlignedVolumesDataset) (rng2 : RNG)
    (h : AlignedVolumesDataset.init env paths protocals crop q fl true rng =
      some (st, rng2)) :
    rng2.seq = rng.seq ∧ rng2.pos = rng.pos + 1 ∧
    (st.getitem env i rngA).2 = rngA ∧
    (st.getitem env i rngA).1 = (st.getitem env i rngB).1 ∧
    (st.getitem env i rngA).1 =
      optList (fun v => v.getitem env i) st.volumes := by
  have hr : rng2 = RNG.mk rng.seq (rng.pos + 1) := by
    unfold AlignedVolumesDataset.init at h
    cases hvs : optList (fun x => VolumeDataset.init env x crop q fl)
        paths with
    | none => rw [hvs] at h; simp at h
    | some volumes =>
      rw [hvs] at h
      dsimp only at h
      by_cases hg1 : (volumes.map VolumeDataset.len).dedup.length = 1
      · rw [if_pos hg1] at h
        cases hsh : optList (fun v => itemShape env v) volumes with
        | none => rw [hsh] at h; simp at h
        | some shapes =>
          rw [hsh] at h
          dsimp only at h
          by_cases hg2 : shapes.dedup.length = 1
          · rw [if_pos hg2] at h
            cases hdict : volumes.foldl
                (fun d v => dictInsert d v.protocal (SliceSource.vol v))
                [] with
            | nil => rw [hdict] at h; simp at h
            | cons p rest =>
              rw [hdict] at h
              obtain ⟨k0, first⟩ := p
              dsimp only at h
              cases hdum : DummyVolumeDataset.init env first with
              | none => rw [hdum] at h; simp at h
              | some dum =>
                rw [hdum] at h
                dsimp only at h
                simp only [reduceIte] at h
                exact resolveProtocals_rng h
          · rw [if_neg hg2] at h; simp at h
      · rw [if_neg hg1] at h; simp at h
  subst hr
  exact ⟨rfl, rfl, rfl, rfl, rfl⟩

def c8Env : Env := fun _ => ⟨RawData.r3 1 1 1 (fun _ _ _ => 1), "T1", 1⟩

def c8Seq : ℕ → ℚ := fun _ => 0

def c8S : VolumeDataset := ⟨"a", false, none, 1, "T1", 0, 1⟩

def c8St : AlignedVolumesDataset := ⟨none, [SliceSource.vol c8S]⟩

theorem claim_C8_construction_coin_witness :
    AlignedVolumesDataset.init c8Env ["a"] ["T1"] none 0 false true
      ⟨c8Seq, 0⟩ = some (c8St, ⟨c8Seq, 1⟩) ∧
    ((⟨c8Seq, 1⟩ : RNG).seq = c8Seq ∧ (⟨c8Seq, 1⟩ : RNG).pos = 0 + 1 ∧
     (c8St.getitem c8Env 0 ⟨c8Seq, 5⟩).2 = ⟨c8Seq, 5⟩ ∧
     (c8St.getitem c8Env 0 ⟨c8Seq, 5⟩).1 =
       (c8St.getitem c8Env 0 ⟨c8Seq, 9⟩).1 ∧
     (c8St.getitem c8Env 0 ⟨c8Seq, 5⟩).1 =
       optList (fun v => v.getitem c8Env 0) c8St.volumes) := by
  have hv : VolumeDataset.init c8Env "a" none 0 false = some c8S := by
    norm_num [VolumeDataset.init, c8Env, c8S, pyRound]
  have hvs : optList (fun x => VolumeDataset.init c8Env x none 0 false)
      ["a"] = some [c8S] := by
    simp [optList, hv]
  have hget : c8S.getitem c8Env 0 = some
      ((((⟨1, 1, 1, fun _ i j => (1 : ℚ)⟩ : Arr3 ℚ).map fun v =>
        (v - 0) / ((c8Env c8S.volume).maxAttr - 0)).map
          fun v => CplxQ.mk v 0)) := by
    unfold VolumeDataset.getitem
    have hra : VolumeDataset.rawSlice c8Env c8S 0 =
        some ⟨1, 1, 1, fun _ i j => (1 : ℚ)⟩ := by
      unfold VolumeDataset.rawSlice
      norm_num [c8S, c8Env]
    rw [hra]
    rfl
  have hitem : itemShape c8Env c8S = some (1, 1, 1) := by
    unfold itemShape
    rw [hget]
    rfl
  have hinit : AlignedVolumesDataset.init c8Env ["a"] ["T1"] none 0 false
      true ⟨c8Seq, 0⟩ = some (c8St, ⟨c8Seq, 1⟩) := by
    unfold AlignedVolumesDataset.init
    rw [hvs]
    dsimp only
    rw [if_pos (by simp [VolumeDataset.len, c8S])]
    have hshapes : optList (fun v => itemShape c8Env v) [c8S] =
        some [(1, 1, 1)] := by
      simp [optList, hitem]
    rw [hshapes]
    dsimp only
    rw [if_pos (by simp)]
    have hdict : List.foldl
        (fun d v => dictInsert d v.protocal (SliceSource.vol v))
        ([] : List (String × SliceSource)) [c8S] =
        [("T1", SliceSource.vol c8S)] := by
      simp [dictInsert, c8S]
    rw [hdict]
    dsimp only
    have hdum : DummyVolumeDataset.init c8Env (SliceSource.vol c8S) =
        some ⟨(1, 1, 1), 1⟩ := by
      unfold DummyVolumeDataset.init SliceSource.getitem
      dsimp only
      rw [hget]
      simp [SliceSource.len, VolumeDataset.len, c8S, Arr3.map]
    rw [hdum]
    dsimp only
    simp only [reduceIte]
    have hp : ¬((1 : ℚ)/2 < c8Seq 0) := by norm_num [c8Seq]
    rw [if_neg hp]
    unfold resolveProtocals
    rw [if_pos (by simp [dictInsert])]
    have hsel : optList (fun p2 => dictFind
        (dictInsert [("T1", SliceSource.vol c8S)] "None"
          (SliceSource.dummy ⟨(1, 1, 1), 1⟩)) p2) ["T1"] =
        some [SliceSource.vol c8S] := by
      simp [optList, dictFind, dictInsert]
    rw [hsel]
    rfl
  exact ⟨hinit,
    claim_C8_construction_coin c8Env ["a"] ["T1"] none 0 false ⟨c8Seq, 0⟩
      ⟨c8Seq, 5⟩ ⟨c8Seq, 9⟩ 0 c8St ⟨c8Seq, 1⟩ hinit⟩
